import Mathlib

/-!
Verification development for the dyninst-tests repository (two programs:
`unknown-x86.cpp` and `cfg-parse.cpp`).  The definitions below are shallow
embeddings of the program fragments relevant to the claims: machine
integers become `Nat`/`Int` (with explicit wrap where the source relies on
unsigned 64-bit arithmetic), the external XED decoder becomes an abstract
oracle `xed : List Nat → Option Nat` (`some len` = successful decode with
that instruction length, `none` = decode error), and fallible code returns
`Option` or a dedicated result type.
-/

/-! ### Shared data model (Dyninst objects as seen by both tools)

A `Blk` models a `ParseAPI::Block` by its start and (exclusive) end address
(`Address` is unsigned 64-bit in Dyninst; modelled as `Nat`). -/

structure Blk where
  start : Nat
  end_ : Nat
deriving DecidableEq

structure FuncT where
  addr : Nat
deriving DecidableEq

structure EdgeT where
  trg : Blk
deriving DecidableEq

/-- `BlockLessThan` from both sources: order blocks by start address. -/
def BlockLessThan (b1 b2 : Blk) : Bool := b1.start < b2.start

/-- `FuncLessThan` from both sources: order functions by entry address. -/
def FuncLessThan (f1 f2 : FuncT) : Bool := f1.addr < f2.addr

/-- `EdgeLessThan` from cfg-parse.cpp: order edges by target block start address. -/
def EdgeLessThan (e1 e2 : EdgeT) : Bool := e1.trg.start < e2.trg.start

/-- The postcondition of `std::sort(first, last, comp)`: the output is a
permutation of the input and is sorted with respect to `comp` (no element
strictly precedes its predecessor).  `std::sort` guarantees nothing more:
in particular it does not promise stability. -/
def IsStdSortOutput {α : Type} (comp : α → α → Bool) (inp out : List α) : Prop :=
  List.Perm inp out ∧ List.Chain' (fun a b => comp b a = false) out

/-- A sorted permutation as produced by `std::sort(blockVec, BlockLessThan)`:
insertion sort with the source's comparator (one admissible `std::sort`
result, sorted by start address). -/
def insertBlock (b : Blk) : List Blk → List Blk
  | [] => [b]
  | x :: xs => if BlockLessThan b x then b :: x :: xs else x :: insertBlock b xs

def sortBlocks : List Blk → List Blk
  | [] => []
  | b :: bs => insertBlock b (sortBlocks bs)

/-! ### unknown-x86.cpp: resync decoder adapter (`myXedCallback`) -/

/-- `MY_BUF_SIZE = XED_MAX_INSTRUCTION_BYTES + 4` with
`XED_MAX_INSTRUCTION_BYTES = 15`. -/
def MY_BUF_SIZE : Nat := 15 + 4

/-- The copy loop at the top of `myXedCallback`: copy the byte window into
a local `uint8_t` buffer, stopping at `MY_BUF_SIZE` bytes. -/
def copyWindow (seqn : List Nat) : List Nat :=
  (seqn.map (· % 256)).take MY_BUF_SIZE

/-- Classification outcome of one callback invocation
(`is_valid` / `is_troll` / neither, with the recorded `xed_len` and troll
offset `start`). -/
inductive Outcome
  | valid (len : Nat)
  | troll (start len : Nat)
  | error
deriving DecidableEq

/-- The trolling loop `for (start = 1; start < buf_len; start++)`:
probe successive offsets, stopping at the first successful decode.
`fuel` is the number of remaining iterations (`buf_len - start`). -/
def trollLoop (xed : List Nat → Option Nat) (buf : List Nat) : Nat → Nat → Outcome
  | _, 0 => .error
  | start, fuel + 1 =>
    match xed (buf.drop start) with
    | some len => .troll start len
    | none => trollLoop xed buf (start + 1) fuel

/-- The classification logic of `myXedCallback`: decode at offset 0; on
failure troll offsets `1 .. buf_len - 1`; if nothing succeeds the region is
an error. -/
def classify (xed : List Nat → Option Nat) (buf : List Nat) : Outcome :=
  match xed buf with
  | some len => .valid len
  | none => trollLoop xed buf 1 (buf.length - 1)

/-- The four unknown-instruction counters (`num_unknown`,
`num_unknown_valid`, `num_unknown_troll`, `num_unknown_error`). -/
structure UStats where
  numUnknown : Nat
  numUnknownValid : Nat
  numUnknownTroll : Nat
  numUnknownError : Nat
deriving DecidableEq

def UStats.zero : UStats := ⟨0, 0, 0, 0⟩

/-- The counting block of `myXedCallback`: counters are updated only when
`initial_parse` is set (splitting a block into instructions causes
duplicate calls, which must not be double-counted). -/
def countStep (initialParse : Bool) (oc : Outcome) (s : UStats) : UStats :=
  if initialParse then
    match oc with
    | .valid _ =>
      { s with numUnknown := s.numUnknown + 1, numUnknownValid := s.numUnknownValid + 1 }
    | .troll _ _ =>
      { s with numUnknown := s.numUnknown + 1, numUnknownTroll := s.numUnknownTroll + 1 }
    | .error =>
      { s with numUnknown := s.numUnknown + 1, numUnknownError := s.numUnknownError + 1 }
  else s

/-- Mutable state threaded through callback invocations: the unknown
counters and the consecutive-failure counter `num_xed_errors`. -/
structure CbState where
  stats : UStats
  numXedErrors : Nat
deriving DecidableEq

def CbState.init : CbState := ⟨UStats.zero, 0⟩

/-- Result of one callback invocation: either the process exits with the
given code (`exit(1)` of the safety valve) or execution continues in a new
state. -/
inductive CbResult
  | exited (code : Nat)
  | ok (s : CbState)
deriving DecidableEq

/-- One invocation of `myXedCallback`: classify the (copied) window, then
run the safety valve (`num_xed_errors++` on failure and `exit(1)` above
20 consecutive failures, reset to 0 on success), then count the outcome
when on the initial parse. -/
def myXedCallback (initialParse : Bool) (xed : List Nat → Option Nat)
    (seqn : List Nat) (s : CbState) : CbResult :=
  match classify xed (copyWindow seqn) with
  | .valid len => .ok ⟨countStep initialParse (.valid len) s.stats, 0⟩
  | .troll k len => .ok ⟨countStep initialParse (.troll k len) s.stats, 0⟩
  | .error =>
    if s.numXedErrors + 1 > 20 then .exited 1
    else .ok ⟨countStep initialParse .error s.stats, s.numXedErrors + 1⟩

/-- A sequence of callback invocations (one per unresolved byte window). -/
def runSeq (initialParse : Bool) (xed : List Nat → Option Nat) :
    List (List Nat) → CbState → CbResult
  | [], s => .ok s
  | w :: ws, s =>
    match myXedCallback initialParse xed w s with
    | .exited c => .exited c
    | .ok s' => runSeq initialParse xed ws s'

/-! ### unknown-x86.cpp: block cross-validator (`doBlock`) -/

/-- A claimed instruction: its Dyninst length and raw bytes
(`size()` and `rawByte(n)`). -/
structure Insn where
  len : Nat
  bytes : List Nat
deriving DecidableEq

/-- The three per-block discrepancy classifications of `doBlock`. -/
inductive BlockErr
  | alignErr
  | lenErr
  | badLen
deriving DecidableEq

/-- Result of the buffer-filling walk (step 2 of `doBlock`). -/
inductive FillResult
  | fail (e : BlockErr)
  | ok (buf : List Nat)
deriving DecidableEq

/-- The inner copy loop of step 2: `buf[pos + n] = (uint8_t) rawByte(n)`
for `n < dyn_len`. -/
def writeIns (buf : List Nat) (pos : Nat) (i : Insn) : List Nat :=
  (List.range i.len).foldl (fun b n => b.set (pos + n) ((i.bytes.getD n 0) % 256)) buf

/-- Step 2 of `doBlock`: walk claimed instructions, checking that each
starts at the running offset (`block_start + pos == addr`) and that
`pos + dyn_len` does not exceed the nominal block size, copying raw bytes
into the buffer. -/
def fillLoop (blockStart blockSize : Nat) :
    List Nat → Nat → List (Nat × Insn) → FillResult
  | buf, _, [] => .ok buf
  | buf, pos, (addr, ins) :: rest =>
    if blockStart + pos ≠ addr then .fail .alignErr
    else if pos + ins.len > blockSize then .fail .lenErr
    else fillLoop blockStart blockSize (writeIns buf pos ins) (pos + ins.len) rest

/-- Step 3 of `doBlock`: re-walk the instructions and decode each at its
offset in the reconstructed buffer with a fixed 16-byte window; a decode
failure or a length disagreement is a bad-length discrepancy. -/
def checkLoop (xed : List Nat → Option Nat) (blockStart : Nat) (buf : List Nat) :
    List (Nat × Insn) → Option BlockErr
  | [] => none
  | (addr, ins) :: rest =>
    match xed ((buf.drop (addr - blockStart)).take 16) with
    | none => some .badLen
    | some xedLen =>
      if ins.len ≠ xedLen then some .badLen
      else checkLoop xed blockStart buf rest

/-- `doBlock` of unknown-x86.cpp: allocate a zeroed buffer of
`block_size + 20` bytes, fill it while checking alignment and length,
then cross-check every claimed length against the reference decoder.
At most one discrepancy is returned (the `goto end_block` early exit). -/
def doBlock (xed : List Nat → Option Nat) (blockStart blockSize : Nat)
    (insns : List (Nat × Insn)) : Option BlockErr :=
  match fillLoop blockStart blockSize (List.replicate (blockSize + 20) 0) 0 insns with
  | .fail e => some e
  | .ok buf => checkLoop xed blockStart buf insns

/-- The per-block discrepancy counters (`num_bad_length`,
`num_block_align_errors`, `num_block_length_errors`). -/
structure BStats where
  numBadLength : Nat
  numBlockAlignErrors : Nat
  numBlockLengthErrors : Nat
deriving DecidableEq

/-- Counter update performed by one `doBlock` call. -/
def applyBlockErr (r : Option BlockErr) (s : BStats) : BStats :=
  match r with
  | none => s
  | some .alignErr => { s with numBlockAlignErrors := s.numBlockAlignErrors + 1 }
  | some .lenErr => { s with numBlockLengthErrors := s.numBlockLengthErrors + 1 }
  | some .badLen => { s with numBadLength := s.numBadLength + 1 }

/-- Contiguity of the claimed instructions: each starts exactly at the
running byte offset from the block start. -/
def contiguousFrom (blockStart : Nat) : Nat → List (Nat × Insn) → Bool
  | _, [] => true
  | pos, (addr, ins) :: rest =>
    (blockStart + pos == addr) && contiguousFrom blockStart (pos + ins.len) rest

/-- The claimed instructions stay within the nominal block size. -/
def fitsFrom (blockSize : Nat) : Nat → List (Nat × Insn) → Bool
  | _, [] => true
  | pos, (_, ins) :: rest =>
    decide (pos + ins.len ≤ blockSize) && fitsFrom blockSize (pos + ins.len) rest

/-- The unchecked byte writer: the buffer produced by step 2 when every
check passes. -/
def fillBytes (buf : List Nat) (pos : Nat) : List (Nat × Insn) → List Nat
  | [] => buf
  | (_, ins) :: rest => fillBytes (writeIns buf pos ins) (pos + ins.len) rest

/-- Total claimed length of a list of instructions. -/
def sumLens : List (Nat × Insn) → Nat
  | [] => 0
  | (_, ins) :: rest => ins.len + sumLens rest

/-! ### unknown-x86.cpp: gap/overlap analyzer (`doGaps`) -/

/-- The gap and overlap counters of unknown-x86.cpp (`num_gaps`,
per-band gap counts, per-band gap byte totals, `num_overlap`). -/
structure GapCounters where
  numGaps : Nat
  numGaps16 : Nat
  numGaps64 : Nat
  numGaps256 : Nat
  numGapsOther : Nat
  numOverlap : Nat
  sizeGaps : Int
  sizeGaps16 : Int
  sizeGaps64 : Int
  sizeGaps256 : Int
  sizeGapsOther : Int
deriving DecidableEq

def GapCounters.zero : GapCounters := ⟨0, 0, 0, 0, 0, 0, 0, 0, 0, 0, 0⟩

/-- Two's-complement reinterpretation of an unsigned 64-bit value as a
signed `long`. -/
def toSigned64 (u : Nat) : Int :=
  if u % 2 ^ 64 < 2 ^ 63 then (u % 2 ^ 64 : Int) else (u % 2 ^ 64 : Int) - 2 ^ 64

/-- `long size = block->start() - prev_block->end()`: the subtraction is
performed on unsigned 64-bit `Address` values (wrapping), and the result
is reinterpreted as a signed `long`.  Meaningful for addresses below
`2 ^ 64` (the range of `Address`). -/
def gapSize (prevEnd nextStart : Nat) : Int :=
  toSigned64 (2 ^ 64 + nextStart - prevEnd)

/-- The body of the adjacent-pair loop of `doGaps`: a positive size is a
gap (counted in the total and in exactly one size band), a negative size
is an overlap (count only), zero is contiguous. -/
def pairUpdate (c : GapCounters) (prevEnd nextStart : Nat) : GapCounters :=
  let size := gapSize prevEnd nextStart
  if 0 < size then
    let c1 := { c with numGaps := c.numGaps + 1, sizeGaps := c.sizeGaps + size }
    if size < 16 then
      { c1 with numGaps16 := c1.numGaps16 + 1, sizeGaps16 := c1.sizeGaps16 + size }
    else if size < 64 then
      { c1 with numGaps64 := c1.numGaps64 + 1, sizeGaps64 := c1.sizeGaps64 + size }
    else if size < 256 then
      { c1 with numGaps256 := c1.numGaps256 + 1, sizeGaps256 := c1.sizeGaps256 + size }
    else
      { c1 with numGapsOther := c1.numGapsOther + 1, sizeGapsOther := c1.sizeGapsOther + size }
  else if size < 0 then
    { c with numOverlap := c.numOverlap + 1 }
  else c

/-- The `for (n = 1; ...)` loop of `doGaps`, carrying `prev_block`. -/
def gapsLoop (c : GapCounters) (prev : Blk) : List Blk → GapCounters
  | [] => c
  | b :: rest => gapsLoop (pairUpdate c prev.end_ b.start) b rest

/-- `doGaps` of unknown-x86.cpp: sort the merged block list by start
address and compare adjacent blocks.  The source reads `blockVec[0]`
unconditionally; on an empty vector that access is out of bounds
(undefined behavior), modelled as `none`. -/
def doGaps (blocks : List Blk) (c : GapCounters) : Option GapCounters :=
  match sortBlocks blocks with
  | [] => none
  | b0 :: rest => some (gapsLoop c b0 rest)

/-! ### cfg-parse.cpp: inline chains (`doInstruction`) -/

/-- `InlineNode` of cfg-parse.cpp: file name, proc name, line number. -/
structure InlineNode where
  filenm : String
  procnm : String
  line : Nat
deriving DecidableEq

/-- A `SymtabAPI::FunctionBase` as used by the inline walk: the function
name and its call site (file, line) — the call site lies in the caller. -/
structure FuncBase where
  name : String
  callFile : String
  callLine : Nat
deriving DecidableEq

/-- `InlineNode(callsite.first, func->getName(), callsite.second)`. -/
def inlineNodeOf (f : FuncBase) : InlineNode := ⟨f.callFile, f.name, f.callLine⟩

/-- The inline walk of `doInstruction`: starting from the innermost
function, while the current function has an inlined parent, `push_front`
its node and move to the parent; the resulting list is then printed front
to back.  The input is the engine's parent chain, innermost-first, ending
with the outermost (not inlined) function. -/
def inlineSeqn : List FuncBase → List InlineNode
  | f :: g :: rest => inlineSeqn (g :: rest) ++ [inlineNodeOf f]
  | _ => []

/-! ### cfg-parse.cpp: output-layer option processing (`getOptions`) -/

/-- The four output-layer toggles of cfg-parse.cpp. -/
structure DumpOptions where
  showBlocks : Bool
  showStmts : Bool
  showInline : Bool
  showLinemap : Bool
deriving DecidableEq

/-- Constructor defaults: all output on. -/
def defaultDumpOptions : DumpOptions := ⟨true, true, true, true⟩

/-- The recognized toggle arguments (`-A/+A`, `-B/+B`, `-S/+S`, `-I/+I`,
`-L/+L`); the `Bool` is `true` for the `+` form. -/
inductive OptTok
  | optA (plus : Bool)
  | optB (plus : Bool)
  | optS (plus : Bool)
  | optI (plus : Bool)
  | optL (plus : Bool)
deriving DecidableEq

/-- One branch of the option loop of `getOptions`. -/
def applyOpt (o : DumpOptions) : OptTok → DumpOptions
  | .optA false =>
    { o with showBlocks := false, showStmts := false, showInline := false, showLinemap := false }
  | .optA true =>
    { o with showBlocks := true, showStmts := true, showInline := true, showLinemap := true }
  | .optB b => { o with showBlocks := b }
  | .optS false => { o with showStmts := false, showInline := false, showLinemap := false }
  | .optS true => { o with showStmts := true, showInline := true, showLinemap := true }
  | .optI false => { o with showInline := false }
  | .optI true => { o with showInline := true, showStmts := true }
  | .optL false => { o with showLinemap := false }
  | .optL true => { o with showLinemap := true, showStmts := true }

/-- The toggle-processing fragment of `getOptions`: arguments are
processed left to right. -/
def getOptions (o : DumpOptions) (args : List OptTok) : DumpOptions :=
  args.foldl applyOpt o

/-! ### Concrete data used by witnesses and counterexamples -/

/-- Oracle that rejects every window. -/
def xedNever : List Nat → Option Nat := fun _ => none

/-- Oracle that accepts every window with length 1. -/
def xedAlwaysOne : List Nat → Option Nat := fun _ => some 1

/-- Oracle that accepts exactly the window `[13, 14]` (length 2): fails at
offsets 0, 1, 2 of `[10, 11, 12, 13, 14]` and succeeds first at offset 3. -/
def xedTail2 : List Nat → Option Nat := fun w => if w = [13, 14] then some 2 else none

/-- Two distinct blocks with the same start address (a tie for
`BlockLessThan`). -/
def blkTieA : Blk := ⟨0x100, 0x110⟩

def blkTieB : Blk := ⟨0x100, 0x108⟩

/-- Innermost inlined function of the C8 example, called from inside I1. -/
def fbI0 : FuncBase := ⟨"I0", "I1.h", 7⟩

/-- Middle inlined function of the C8 example, called from inside O. -/
def fbI1 : FuncBase := ⟨"I1", "O.c", 3⟩

/-- Outermost (not inlined) function of the C8 example. -/
def fbO : FuncBase := ⟨"O", "", 0⟩

/-- A clean two-instruction block for the C4 witness. -/
def cleanInsns : List (Nat × Insn) := [(0, ⟨1, [144]⟩), (1, ⟨1, [144]⟩)]

/-- The gap-counter invariant (claim C9): the total gap count and total
gap size each split exactly over the four bands. -/
def gapInv (c : GapCounters) : Prop :=
  c.numGaps = c.numGaps16 + c.numGaps64 + c.numGaps256 + c.numGapsOther ∧
  c.sizeGaps = c.sizeGaps16 + c.sizeGaps64 + c.sizeGaps256 + c.sizeGapsOther

/-! ### Claim C1 -/

/-- C1: edge cases of the Gap/Overlap Analyzer.  On a single-block set
`doGaps` performs no analysis and leaves every counter unchanged; but on
an empty block set the source reads `blockVec[0]` from an empty vector —
an out-of-bounds access (modelled as `none`) — so the claim's "completes
without accessing any block element out of bounds" fails for the empty
set. -/
theorem C1_doGaps_edge_cases :
    (∀ c : GapCounters, doGaps [] c = none) ∧
    (∀ (b : Blk) (c : GapCounters), doGaps [b] c = some c) := by
  exact ⟨fun _ => rfl, fun _ _ => rfl⟩

/-! ### Claim C2 -/

/-- The trolling loop returns the first offset at which the decoder
succeeds. -/
theorem trollLoop_first_success (xed : List Nat → Option Nat) (buf : List Nat) :
    ∀ (fuel start k len : Nat), start ≤ k → k < start + fuel →
      xed (buf.drop k) = some len →
      (∀ j, j < k → start ≤ j → xed (buf.drop j) = none) →
      trollLoop xed buf start fuel = .troll k len := by
  intro fuel
  induction fuel with
  | zero =>
    intro start k len h1 h2 _ _
    omega
  | succ n ih =>
    intro start k len h1 h2 hk hnone
    by_cases hs : start = k
    · subst hs
      simp [trollLoop, hk]
    · have hlt : start < k := lt_of_le_of_ne h1 hs
      have hx : xed (buf.drop start) = none := hnone start hlt le_rfl
      simp only [trollLoop, hx]
      exact ih (start + 1) k len (by omega) (by omega) hk
        (fun j hj hj2 => hnone j hj (by omega))

/-- The trolling loop fails when every probed offset fails. -/
theorem trollLoop_all_fail (xed : List Nat → Option Nat) (buf : List Nat) :
    ∀ (fuel start : Nat),
      (∀ j, j < start + fuel → start ≤ j → xed (buf.drop j) = none) →
      trollLoop xed buf start fuel = .error := by
  intro fuel
  induction fuel with
  | zero => intro start _; rfl
  | succ n ih =>
    intro start hnone
    have hx : xed (buf.drop start) = none := hnone start (by omega) le_rfl
    simp only [trollLoop, hx]
    exact ih (start + 1) (fun j hj hj2 => hnone j (by omega) (by omega))

/-- C2 (amended): resync classification.  A window that decodes at offset
0 is UNKNOWN_VALID with the reference length recorded; a window that fails
at offset 0 and first succeeds at offset `k` (with `1 ≤ k < buf.length`)
is UNKNOWN_TROLL with `k` and the reference length recorded; a window that
fails at every offset is UNKNOWN_ERROR.  Exactly one of the three
classifications is counted, but only on invocations made during the
initial parse (`initial_parse` set); replay invocations count none (see
the counterexample). -/
theorem C2_resync_classification :
    ∀ (xed : List Nat → Option Nat) (buf : List Nat) (s : UStats),
      (∀ len, xed buf = some len → classify xed buf = .valid len) ∧
      (∀ k len, 1 ≤ k → k < buf.length → xed buf = none →
        xed (buf.drop k) = some len →
        (∀ j, j < k → 1 ≤ j → xed (buf.drop j) = none) →
        classify xed buf = .troll k len) ∧
      (xed buf = none → (∀ j, j < buf.length → xed (buf.drop j) = none) →
        classify xed buf = .error) ∧
      (∀ len, countStep true (.valid len) s =
        { s with numUnknown := s.numUnknown + 1,
                 numUnknownValid := s.numUnknownValid + 1 }) ∧
      (∀ k len, countStep true (.troll k len) s =
        { s with numUnknown := s.numUnknown + 1,
                 numUnknownTroll := s.numUnknownTroll + 1 }) ∧
      (countStep true .error s =
        { s with numUnknown := s.numUnknown + 1,
                 numUnknownError := s.numUnknownError + 1 }) := by
  intro xed buf s
  refine ⟨?_, ?_, ?_, fun _ => rfl, fun _ _ => rfl, rfl⟩
  · intro len h
    simp [classify, h]
  · intro k len hk1 hk2 h0 hk hnone
    simp only [classify, h0]
    exact trollLoop_first_success xed buf (buf.length - 1) 1 k len hk1 (by omega) hk
      (fun j hj hj2 => hnone j hj hj2)
  · intro h0 hall
    simp only [classify, h0]
    exact trollLoop_all_fail xed buf (buf.length - 1) 1
      (fun j hj hj2 => hall j (by omega))

/-- C2 counterexample: an invocation made outside the initial parse
(`initial_parse == 0`, as happens when a block is later split into
instructions) classifies the window but counts none of the three
classifications, refuting "exactly one of the three classifications is
counted per invocation". -/
theorem C2_count_counterexample :
    classify xedAlwaysOne [144] = .valid 1 ∧
    countStep false (classify xedAlwaysOne [144]) UStats.zero = UStats.zero ∧
    ¬ ((countStep false (classify xedAlwaysOne [144]) UStats.zero).numUnknownValid +
        (countStep false (classify xedAlwaysOne [144]) UStats.zero).numUnknownTroll +
        (countStep false (classify xedAlwaysOne [144]) UStats.zero).numUnknownError =
        UStats.zero.numUnknownValid + UStats.zero.numUnknownTroll +
        UStats.zero.numUnknownError + 1) := by
  exact ⟨rfl, rfl, by decide⟩

/-- C2 witness: a window failing at offsets 0..2 and succeeding first at
offset 3 is classified UNKNOWN_TROLL with offset 3 and length 2
recorded. -/
theorem C2_resync_classification_witness :
    classify xedTail2 [10, 11, 12, 13, 14] = .troll 3 2 :=
  ((C2_resync_classification xedTail2 [10, 11, 12, 13, 14] UStats.zero).2.1) 3 2
    (by decide) (by decide) (by decide) (by decide) (by decide)

/-! ### Claim C3 -/

/-- The only exit code ever produced by the callback is 1. -/
theorem myXedCallback_exit_code (ip : Bool) (xed : List Nat → Option Nat)
    (w : List Nat) (s : CbState) (c : Nat) :
    myXedCallback ip xed w s = .exited c → c = 1 := by
  intro h
  unfold myXedCallback at h
  split at h
  · cases h
  · cases h
  · split at h
    · cases h
      rfl
    · cases h

/-- The only exit code ever produced by a sequence of invocations is 1. -/
theorem runSeq_exit_code (ip : Bool) (xed : List Nat → Option Nat) :
    ∀ (ws : List (List Nat)) (s : CbState) (c : Nat),
      runSeq ip xed ws s = .exited c → c = 1 := by
  intro ws
  induction ws with
  | nil => intro s c h; exact absurd h (by simp [runSeq])
  | cons w ws ih =>
    intro s c h
    simp only [runSeq] at h
    cases hcb : myXedCallback ip xed w s with
    | exited c' =>
      rw [hcb] at h
      cases h
      exact myXedCallback_exit_code ip xed w s c hcb
    | ok s' =>
      rw [hcb] at h
      exact ih s' c h

/-- Invocation sequences compose by sequencing. -/
theorem runSeq_append (ip : Bool) (xed : List Nat → Option Nat) :
    ∀ (l1 l2 : List (List Nat)) (s : CbState),
      runSeq ip xed (l1 ++ l2) s =
        (match runSeq ip xed l1 s with
         | .exited c => .exited c
         | .ok s' => runSeq ip xed l2 s') := by
  intro l1
  induction l1 with
  | nil => intro l2 s; rfl
  | cons w ws ih =>
    intro l2 s
    simp only [List.cons_append, runSeq]
    cases hcb : myXedCallback ip xed w s with
    | exited c => rfl
    | ok s' => exact ih l2 s'

/-- From any state, 21 consecutive UNKNOWN_ERROR invocations (or fewer if
the running counter is already high) trip the safety valve. -/
theorem runSeq_error_abort (ip : Bool) (xed : List Nat → Option Nat) :
    ∀ (mid : List (List Nat)) (s : CbState), mid ≠ [] →
      21 ≤ s.numXedErrors + mid.length →
      (∀ w ∈ mid, classify xed (copyWindow w) = .error) →
      runSeq ip xed mid s = .exited 1 := by
  intro mid
  induction mid with
  | nil => intro s h; exact absurd rfl h
  | cons w ws ih =>
    intro s _ hlen hall
    have hw : classify xed (copyWindow w) = .error := hall w (by simp)
    simp only [runSeq, myXedCallback, hw]
    by_cases hn : s.numXedErrors + 1 > 20
    · rw [if_pos hn]
    · have hws : ws ≠ [] := by
        intro hnil
        subst hnil
        simp at hlen
        omega
      rw [if_neg hn]
      refine ih _ hws ?_ (fun w' hw' => hall w' (by simp [hw']))
      show 21 ≤ s.numXedErrors + 1 + ws.length
      simp only [List.length_cons] at hlen
      omega

/-- C3: the consecutive-failure counter `num_xed_errors` is incremented
exactly on UNKNOWN_ERROR outcomes and reset to zero whenever a decode
succeeds (UNKNOWN_VALID or UNKNOWN_TROLL); the process exits with code 1
exactly when an UNKNOWN_ERROR outcome pushes the counter above 20; any
state the process continues in has counter at most 20, so it never
continues past 21 consecutive unresolved invocations (third conjunct). -/
theorem C3_safety_valve :
    ∀ (ip : Bool) (xed : List Nat → Option Nat) (seqn : List Nat) (s : CbState),
      (∀ c, myXedCallback ip xed seqn s = .exited c →
        c = 1 ∧ classify xed (copyWindow seqn) = .error ∧ 20 < s.numXedErrors + 1) ∧
      (∀ s', myXedCallback ip xed seqn s = .ok s' →
        s'.numXedErrors =
          (if classify xed (copyWindow seqn) = .error then s.numXedErrors + 1 else 0) ∧
        s'.numXedErrors ≤ 20) ∧
      (∀ (pre mid post : List (List Nat)), 21 ≤ mid.length →
        (∀ w ∈ mid, classify xed (copyWindow w) = .error) →
        runSeq ip xed (pre ++ (mid ++ post)) s = .exited 1) := by
  intro ip xed seqn s
  refine ⟨?_, ?_, ?_⟩
  · intro c h
    unfold myXedCallback at h
    split at h
    · cases h
    · cases h
    · rename_i hcl
      split at h
      · rename_i hn
        cases h
        exact ⟨rfl, hcl, hn⟩
      · cases h
  · intro s' h
    unfold myXedCallback at h
    split at h
    · rename_i len hcl
      cases h
      rw [if_neg (by rw [hcl]; intro hc; cases hc)]
      refine ⟨rfl, ?_⟩
      show (0 : Nat) ≤ 20
      omega
    · rename_i k len hcl
      cases h
      rw [if_neg (by rw [hcl]; intro hc; cases hc)]
      refine ⟨rfl, ?_⟩
      show (0 : Nat) ≤ 20
      omega
    · rename_i hcl
      split at h
      · cases h
      · rename_i hn
        cases h
        rw [if_pos hcl]
        refine ⟨rfl, ?_⟩
        show s.numXedErrors + 1 ≤ 20
        omega
  · intro pre mid post hlen hall
    rw [runSeq_append ip xed pre (mid ++ post) s]
    cases hpre : runSeq ip xed pre s with
    | exited c =>
      show CbResult.exited c = CbResult.exited 1
      rw [runSeq_exit_code ip xed pre s c hpre]
    | ok s1 =>
      show runSeq ip xed (mid ++ post) s1 = CbResult.exited 1
      rw [runSeq_append ip xed mid post s1]
      rw [runSeq_error_abort ip xed mid s1 (by intro hnil; subst hnil; simp at hlen)
        (by omega) hall]

/-- C3 witness: from the initial state, 21 consecutive windows that fail
at every offset make the process exit with code 1. -/
theorem C3_safety_valve_witness :
    runSeq true xedNever ([] ++ (List.replicate 21 [0] ++ [])) CbState.init = .exited 1 :=
  (C3_safety_valve true xedNever [0] CbState.init).2.2 [] (List.replicate 21 [0]) []
    (by decide) (by decide)

/-! ### Claim C4 -/

/-- Instructions after a failing check are never examined: a failure of
the filling walk on a prefix decides the block. -/
theorem fillLoop_append_fail (bS bSz : Nat) :
    ∀ (l1 l2 : List (Nat × Insn)) (buf : List Nat) (pos : Nat) (e : BlockErr),
      fillLoop bS bSz buf pos l1 = .fail e →
      fillLoop bS bSz buf pos (l1 ++ l2) = .fail e := by
  intro l1
  induction l1 with
  | nil =>
    intro l2 buf pos e h
    simp [fillLoop] at h
  | cons p rest ih =>
    intro l2 buf pos e h
    obtain ⟨addr, ins⟩ := p
    simp only [List.cons_append, fillLoop] at h ⊢
    by_cases h1 : bS + pos ≠ addr
    · rw [if_pos h1] at h ⊢
      exact h
    · rw [if_neg h1] at h ⊢
      by_cases h2 : pos + ins.len > bSz
      · rw [if_pos h2] at h ⊢
        exact h
      · rw [if_neg h2] at h ⊢
        exact ih l2 _ _ e h

/-- On a contiguous, in-bounds instruction list the filling walk succeeds
and produces the written buffer. -/
theorem fillLoop_ok_of_clean (bS bSz : Nat) :
    ∀ (l : List (Nat × Insn)) (buf : List Nat) (pos : Nat),
      contiguousFrom bS pos l = true → fitsFrom bSz pos l = true →
      fillLoop bS bSz buf pos l = .ok (fillBytes buf pos l) := by
  intro l
  induction l with
  | nil => intro buf pos _ _; rfl
  | cons p rest ih =>
    intro buf pos hc hf
    obtain ⟨addr, ins⟩ := p
    simp only [contiguousFrom, Bool.and_eq_true, beq_iff_eq] at hc
    simp only [fitsFrom, Bool.and_eq_true, decide_eq_true_eq] at hf
    obtain ⟨hc1, hc2⟩ := hc
    obtain ⟨hf1, hf2⟩ := hf
    simp only [fillLoop, fillBytes]
    rw [if_neg (by omega), if_neg (by omega)]
    exact ih _ _ hc2 hf2

/-- The cross-check walk records nothing when the reference decoder
matches every claimed length. -/
theorem checkLoop_ok_of_match (xed : List Nat → Option Nat) (bS : Nat) :
    ∀ (l : List (Nat × Insn)) (buf : List Nat),
      (∀ p ∈ l, xed ((buf.drop (p.1 - bS)).take 16) = some p.2.len) →
      checkLoop xed bS buf l = none := by
  intro l
  induction l with
  | nil => intro buf _; rfl
  | cons p rest ih =>
    intro buf hall
    obtain ⟨addr, ins⟩ := p
    have h1 : xed ((buf.drop (addr - bS)).take 16) = some ins.len :=
      hall (addr, ins) (by simp)
    simp only [checkLoop, h1]
    rw [if_neg (by simp)]
    exact ih buf (fun p hp => hall p (by simp [hp]))

/-- C4: one `doBlock` call increments the three block-discrepancy
counters by at most one in total; a failing check on a prefix decides the
result regardless of later instructions (checking stops at the first
discrepancy); a block whose claimed instructions are contiguous, within
the block bounds, and length-matched by the reference decoder records no
discrepancy. -/
theorem C4_doBlock_at_most_one_error :
    ∀ (xed : List Nat → Option Nat) (bS bSz : Nat) (insns : List (Nat × Insn)) (s : BStats),
      ((applyBlockErr (doBlock xed bS bSz insns) s).numBadLength +
        (applyBlockErr (doBlock xed bS bSz insns) s).numBlockAlignErrors +
        (applyBlockErr (doBlock xed bS bSz insns) s).numBlockLengthErrors ≤
        s.numBadLength + s.numBlockAlignErrors + s.numBlockLengthErrors + 1) ∧
      (∀ (l2 : List (Nat × Insn)) (e : BlockErr),
        fillLoop bS bSz (List.replicate (bSz + 20) 0) 0 insns = .fail e →
        doBlock xed bS bSz (insns ++ l2) = some e) ∧
      (contiguousFrom bS 0 insns = true →
        fitsFrom bSz 0 insns = true →
        (∀ p ∈ insns,
          xed (((fillBytes (List.replicate (bSz + 20) 0) 0 insns).drop (p.1 - bS)).take 16) =
            some p.2.len) →
        doBlock xed bS bSz insns = none) := by
  intro xed bS bSz insns s
  refine ⟨?_, ?_, ?_⟩
  · cases h : doBlock xed bS bSz insns with
    | none => simp [applyBlockErr]
    | some e => cases e <;> simp [applyBlockErr] <;> omega
  · intro l2 e h
    unfold doBlock
    rw [fillLoop_append_fail bS bSz insns l2 _ 0 e h]
  · intro hc hf hx
    unfold doBlock
    rw [fillLoop_ok_of_clean bS bSz insns _ 0 hc hf]
    exact checkLoop_ok_of_match xed bS insns _ hx

/-- C4 witness: a concrete clean block (two contiguous one-byte
instructions, both length-matched) records no discrepancy. -/
theorem C4_doBlock_at_most_one_error_witness :
    doBlock xedAlwaysOne 0 2 cleanInsns = none :=
  (C4_doBlock_at_most_one_error xedAlwaysOne 0 2 cleanInsns ⟨0, 0, 0⟩).2.2
    (by decide) (by decide) (by decide)

/-! ### Claim C5 -/

/-- The cross-check walk never produces a BLOCK_LENGTH_ERROR. -/
theorem checkLoop_ne_lenErr (xed : List Nat → Option Nat) (bS : Nat) :
    ∀ (l : List (Nat × Insn)) (buf : List Nat),
      checkLoop xed bS buf l ≠ some .lenErr := by
  intro l
  induction l with
  | nil => intro buf h; cases h
  | cons p rest ih =>
    intro buf h
    obtain ⟨addr, ins⟩ := p
    simp only [checkLoop] at h
    cases hx : xed ((buf.drop (addr - bS)).take 16) with
    | none =>
      rw [hx] at h
      simp at h
    | some xl =>
      rw [hx] at h
      have h' : (if ins.len ≠ xl then some BlockErr.badLen
          else checkLoop xed bS buf rest) = some BlockErr.lenErr := h
      by_cases hl : ins.len ≠ xl
      · rw [if_pos hl] at h'
        simp at h'
      · rw [if_neg hl] at h'
        exact ih buf h'

/-- `doBlock` reports a BLOCK_LENGTH_ERROR exactly when the filling walk
does. -/
theorem doBlock_lenErr_iff (xed : List Nat → Option Nat) (bS bSz : Nat)
    (insns : List (Nat × Insn)) :
    doBlock xed bS bSz insns = some .lenErr ↔
      fillLoop bS bSz (List.replicate (bSz + 20) 0) 0 insns = .fail .lenErr := by
  unfold doBlock
  cases hfl : fillLoop bS bSz (List.replicate (bSz + 20) 0) 0 insns with
  | fail e =>
    show some e = some BlockErr.lenErr ↔ FillResult.fail e = FillResult.fail BlockErr.lenErr
    constructor
    · intro h
      rw [Option.some.inj h]
    · intro h
      rw [FillResult.fail.inj h]
  | ok buf =>
    show checkLoop xed bS buf insns = some BlockErr.lenErr ↔
      FillResult.ok buf = FillResult.fail BlockErr.lenErr
    constructor
    · intro h
      exact absurd h (checkLoop_ne_lenErr xed bS insns buf)
    · intro h
      cases h

/-- Characterization of the filling walk's BLOCK_LENGTH_ERROR: it occurs
exactly at the first claimed instruction that is aligned but whose
appended end `pos + dyn_len` exceeds the nominal block size. -/
theorem fillLoop_lenErr_iff (bS bSz : Nat) :
    ∀ (l : List (Nat × Insn)) (buf : List Nat) (pos : Nat),
      fillLoop bS bSz buf pos l = .fail .lenErr ↔
        ∃ l1 a i l2, l = l1 ++ (a, i) :: l2 ∧
          contiguousFrom bS pos l1 = true ∧ fitsFrom bSz pos l1 = true ∧
          a = bS + pos + sumLens l1 ∧ bSz < pos + sumLens l1 + i.len := by
  intro l
  induction l with
  | nil =>
    intro buf pos
    constructor
    · intro h
      simp [fillLoop] at h
    · rintro ⟨l1, a, i, l2, heq, -⟩
      exact absurd heq (by simp)
  | cons p rest ih =>
    intro buf pos
    obtain ⟨addr, ins⟩ := p
    constructor
    · intro h
      simp only [fillLoop] at h
      by_cases h1 : bS + pos ≠ addr
      · rw [if_pos h1] at h
        simp at h
      · rw [if_neg h1] at h
        by_cases h2 : pos + ins.len > bSz
        · rw [if_pos h2] at h
          refine ⟨[], addr, ins, rest, rfl, rfl, rfl, ?_, ?_⟩
          · show addr = bS + pos + sumLens []
            simp only [sumLens]
            omega
          · show bSz < pos + sumLens [] + ins.len
            simp only [sumLens]
            omega
        · rw [if_neg h2] at h
          obtain ⟨l1, a, i, l2, heq, hc, hf, ha, hb⟩ := (ih _ _).mp h
          refine ⟨(addr, ins) :: l1, a, i, l2, by simp [heq], ?_, ?_, ?_, ?_⟩
          · simp only [contiguousFrom, Bool.and_eq_true, beq_iff_eq]
            exact ⟨by omega, hc⟩
          · simp only [fitsFrom, Bool.and_eq_true, decide_eq_true_eq]
            exact ⟨by omega, hf⟩
          · simp only [sumLens]
            omega
          · simp only [sumLens]
            omega
    · rintro ⟨l1, a, i, l2, heq, hc, hf, ha, hb⟩
      cases l1 with
      | nil =>
        simp only [List.nil_append, List.cons.injEq, Prod.mk.injEq] at heq
        obtain ⟨⟨he1, he2⟩, he3⟩ := heq
        simp only [sumLens] at ha hb
        simp only [fillLoop]
        rw [if_neg (by omega), if_pos (by subst he2; omega)]
      | cons q l1' =>
        obtain ⟨qa, qi⟩ := q
        simp only [List.cons_append, List.cons.injEq, Prod.mk.injEq] at heq
        obtain ⟨⟨he1, he2⟩, he3⟩ := heq
        simp only [contiguousFrom, Bool.and_eq_true, beq_iff_eq] at hc
        simp only [fitsFrom, Bool.and_eq_true, decide_eq_true_eq] at hf
        obtain ⟨hc1, hc2⟩ := hc
        obtain ⟨hf1, hf2⟩ := hf
        simp only [sumLens] at ha hb
        simp only [fillLoop]
        rw [if_neg (by omega), if_neg (by subst he2; omega)]
        refine (ih _ _).mpr ⟨l1', a, i, l2, he3, ?_, ?_, by subst he2; omega, by subst he2; omega⟩
        · subst he2
          exact hc2
        · subst he2
          exact hf2

/-- C5 (amended): the reconstruction buffer is sized block length plus 20
bytes, but BLOCK_LENGTH_ERROR is recorded for a claimed instruction
exactly when appending it at the running offset would exceed the nominal
block length (`pos + dyn_len > block_size`) — a strictly smaller bound
than the reconstructed buffer. -/
theorem C5_block_length_error_cond :
    ∀ (xed : List Nat → Option Nat) (bS bSz : Nat) (insns : List (Nat × Insn)),
      (List.replicate (bSz + 20) (0 : Nat)).length = bSz + 20 ∧
      (doBlock xed bS bSz insns = some .lenErr ↔
        ∃ l1 a i l2, insns = l1 ++ (a, i) :: l2 ∧
          contiguousFrom bS 0 l1 = true ∧ fitsFrom bSz 0 l1 = true ∧
          a = bS + sumLens l1 ∧ bSz < sumLens l1 + i.len) := by
  intro xed bS bSz insns
  refine ⟨by simp, ?_⟩
  rw [doBlock_lenErr_iff xed bS bSz insns, fillLoop_lenErr_iff bS bSz insns _ 0]
  constructor
  · rintro ⟨l1, a, i, l2, heq, hc, hf, ha, hb⟩
    exact ⟨l1, a, i, l2, heq, hc, hf, by omega, by omega⟩
  · rintro ⟨l1, a, i, l2, heq, hc, hf, ha, hb⟩
    exact ⟨l1, a, i, l2, heq, hc, hf, by omega, by omega⟩

/-- C5 counterexample: block size 4, one claimed instruction of length 6
at offset 0.  Appending it stays within the reconstructed buffer
(`0 + 6 ≤ 4 + 20` bytes), yet BLOCK_LENGTH_ERROR is recorded: the check
compares against the nominal block size, not the reconstructed buffer
bound, refuting the claim as stated. -/
theorem C5_counterexample :
    doBlock xedNever 0 4 [(0, ⟨6, []⟩)] = some .lenErr ∧ ¬ (0 + 6 > 4 + 20) := by
  exact ⟨by decide, by decide⟩

/-! ### Claim C6 -/

/-- C6: for an adjacent pair the signed size is `next.start − prev.end`
(for addresses in the `Address` range), a positive size records exactly
one gap in exactly one half-open band `[0,16)`, `[16,64)`, `[64,256)`,
`[256,∞)` (count and total size), a negative size records exactly one
overlap (count only), and size zero records nothing; concretely a gap of
size 10 falls in the `<16` band, a gap of size 16 falls in the `<64`
band, and blocks `[0x100,0x110)` then `[0x108,0x118)` yield one OVERLAP
and zero GAP. -/
theorem C6_gap_overlap_bucketing :
    ∀ (prevEnd nextStart : Nat) (c : GapCounters),
      (prevEnd < 2 ^ 63 → nextStart < 2 ^ 63 →
        gapSize prevEnd nextStart = (nextStart : Int) - (prevEnd : Int)) ∧
      (0 < gapSize prevEnd nextStart → gapSize prevEnd nextStart < 16 →
        pairUpdate c prevEnd nextStart =
          { c with numGaps := c.numGaps + 1,
                   sizeGaps := c.sizeGaps + gapSize prevEnd nextStart,
                   numGaps16 := c.numGaps16 + 1,
                   sizeGaps16 := c.sizeGaps16 + gapSize prevEnd nextStart }) ∧
      (16 ≤ gapSize prevEnd nextStart → gapSize prevEnd nextStart < 64 →
        pairUpdate c prevEnd nextStart =
          { c with numGaps := c.numGaps + 1,
                   sizeGaps := c.sizeGaps + gapSize prevEnd nextStart,
                   numGaps64 := c.numGaps64 + 1,
                   sizeGaps64 := c.sizeGaps64 + gapSize prevEnd nextStart }) ∧
      (64 ≤ gapSize prevEnd nextStart → gapSize prevEnd nextStart < 256 →
        pairUpdate c prevEnd nextStart =
          { c with numGaps := c.numGaps + 1,
                   sizeGaps := c.sizeGaps + gapSize prevEnd nextStart,
                   numGaps256 := c.numGaps256 + 1,
                   sizeGaps256 := c.sizeGaps256 + gapSize prevEnd nextStart }) ∧
      (256 ≤ gapSize prevEnd nextStart →
        pairUpdate c prevEnd nextStart =
          { c with numGaps := c.numGaps + 1,
                   sizeGaps := c.sizeGaps + gapSize prevEnd nextStart,
                   numGapsOther := c.numGapsOther + 1,
                   sizeGapsOther := c.sizeGapsOther + gapSize prevEnd nextStart }) ∧
      (gapSize prevEnd nextStart < 0 →
        pairUpdate c prevEnd nextStart = { c with numOverlap := c.numOverlap + 1 }) ∧
      (gapSize prevEnd nextStart = 0 → pairUpdate c prevEnd nextStart = c) ∧
      pairUpdate GapCounters.zero 0x100 0x10a =
        { GapCounters.zero with numGaps := 1, sizeGaps := 10,
                                numGaps16 := 1, sizeGaps16 := 10 } ∧
      pairUpdate GapCounters.zero 0x100 0x110 =
        { GapCounters.zero with numGaps := 1, sizeGaps := 16,
                                numGaps64 := 1, sizeGaps64 := 16 } ∧
      doGaps [⟨0x100, 0x110⟩, ⟨0x108, 0x118⟩] GapCounters.zero =
        some { GapCounters.zero with numOverlap := 1 } := by
  intro prevEnd nextStart c
  refine ⟨?_, ?_, ?_, ?_, ?_, ?_, ?_, by decide, by decide, by decide⟩
  · intro h1 h2
    unfold gapSize toSigned64
    by_cases hle : prevEnd ≤ nextStart
    · have he : 2 ^ 64 + nextStart - prevEnd = 2 ^ 64 + (nextStart - prevEnd) := by omega
      rw [he]
      have h3 : (2 ^ 64 + (nextStart - prevEnd)) % 2 ^ 64 = nextStart - prevEnd := by
        rw [Nat.add_mod_left]
        exact Nat.mod_eq_of_lt (by omega)
      rw [h3, if_pos (by omega)]
      omega
    · have he : 2 ^ 64 + nextStart - prevEnd = 2 ^ 64 - (prevEnd - nextStart) := by omega
      rw [he]
      have h3 : (2 ^ 64 - (prevEnd - nextStart)) % 2 ^ 64 = 2 ^ 64 - (prevEnd - nextStart) :=
        Nat.mod_eq_of_lt (by omega)
      rw [h3, if_neg (by omega)]
      omega
  · intro ha hb
    simp only [pairUpdate]
    rw [if_pos ha, if_pos hb]
  · intro ha hb
    simp only [pairUpdate]
    rw [if_pos (by omega), if_neg (by omega), if_pos hb]
  · intro ha hb
    simp only [pairUpdate]
    rw [if_pos (by omega), if_neg (by omega), if_neg (by omega), if_pos hb]
  · intro ha
    simp only [pairUpdate]
    rw [if_pos (by omega), if_neg (by omega), if_neg (by omega), if_neg (by omega)]
  · intro ha
    simp only [pairUpdate]
    rw [if_neg (by omega), if_pos ha]
  · intro ha
    simp only [pairUpdate]
    rw [if_neg (by omega), if_neg (by omega)]

/-- C6 witness: blocks ending at 16 and starting at 26 leave a gap of
size 10, recorded once in the `<16` band. -/
theorem C6_gap_overlap_bucketing_witness :
    pairUpdate GapCounters.zero 16 26 =
      { GapCounters.zero with numGaps := 1, sizeGaps := 10,
                              numGaps16 := 1, sizeGaps16 := 10 } :=
  ((C6_gap_overlap_bucketing 16 26 GapCounters.zero).2.1) (by decide) (by decide)

/-! ### Claim C7 -/

/-- C7: the comparators key only on address, so `std::sort`'s contract —
all the code requires — admits, for an input holding two distinct blocks
with equal start addresses, an output in which their original relative
order is reversed: the unstable `std::sort` used by the source does not
guarantee the claimed tie stability (that needs `std::stable_sort`). -/
theorem C7_sort_contract_allows_instability :
    IsStdSortOutput BlockLessThan [blkTieA, blkTieB] [blkTieB, blkTieA] ∧
    blkTieA.start = blkTieB.start ∧ blkTieA ≠ blkTieB := by
  refine ⟨⟨List.Perm.swap blkTieB blkTieA [], ?_⟩, rfl, by decide⟩
  refine List.chain'_cons.mpr ⟨by decide, ?_⟩
  simp

/-! ### Claim C8 -/

/-- C8: the dumper emits inline frames in exactly the reverse of the
engine's innermost-first order (outermost-first, call order); in
particular for the chain I0 inlined into I1 inlined into O it emits the
frame of I1 (call site in O) and then the frame of I0 (call site in I1):
O → I1 → I0. -/
theorem C8_inline_chain_reversal :
    (∀ funcs : List FuncBase,
      inlineSeqn funcs = (funcs.dropLast.map inlineNodeOf).reverse) ∧
    inlineSeqn [fbI0, fbI1, fbO] = [inlineNodeOf fbI1, inlineNodeOf fbI0] := by
  constructor
  · intro funcs
    induction funcs with
    | nil => rfl
    | cons f rest ih =>
      cases rest with
      | nil => rfl
      | cons g rs =>
        show inlineSeqn (g :: rs) ++ [inlineNodeOf f] =
          ((f :: g :: rs).dropLast.map inlineNodeOf).reverse
        rw [ih]
        rw [show (f :: g :: rs).dropLast = f :: (g :: rs).dropLast from rfl]
        rw [List.map_cons, List.reverse_cons]
  · rfl

/-! ### Claim C9 -/

/-- C9: the gap-counter invariant — `num_gaps` equals the sum of the four
band counts and `size_gaps` equals the sum of the four band sizes — holds
for the zero counters, is preserved by every individual pair update and
by the whole pair loop, and therefore holds after every completed
`doGaps` run. -/
theorem C9_gap_counter_invariant :
    gapInv GapCounters.zero ∧
    (∀ (c : GapCounters) (prevEnd nextStart : Nat),
      gapInv c → gapInv (pairUpdate c prevEnd nextStart)) ∧
    (∀ (c : GapCounters) (b : Blk) (rest : List Blk),
      gapInv c → gapInv (gapsLoop c b rest)) ∧
    (∀ (blocks : List Blk) (c c' : GapCounters),
      gapInv c → doGaps blocks c = some c' → gapInv c') := by
  have hpair : ∀ (c : GapCounters) (pe ns : Nat), gapInv c → gapInv (pairUpdate c pe ns) := by
    intro c pe ns hc
    obtain ⟨h1, h2⟩ := hc
    simp only [pairUpdate]
    by_cases hpos : 0 < gapSize pe ns
    · rw [if_pos hpos]
      by_cases h16 : gapSize pe ns < 16
      · rw [if_pos h16]
        refine ⟨?_, ?_⟩
        · show c.numGaps + 1 = c.numGaps16 + 1 + c.numGaps64 + c.numGaps256 + c.numGapsOther
          omega
        · show c.sizeGaps + gapSize pe ns =
            c.sizeGaps16 + gapSize pe ns + c.sizeGaps64 + c.sizeGaps256 + c.sizeGapsOther
          omega
      · rw [if_neg h16]
        by_cases h64 : gapSize pe ns < 64
        · rw [if_pos h64]
          refine ⟨?_, ?_⟩
          · show c.numGaps + 1 = c.numGaps16 + (c.numGaps64 + 1) + c.numGaps256 + c.numGapsOther
            omega
          · show c.sizeGaps + gapSize pe ns =
              c.sizeGaps16 + (c.sizeGaps64 + gapSize pe ns) + c.sizeGaps256 + c.sizeGapsOther
            omega
        · rw [if_neg h64]
          by_cases h256 : gapSize pe ns < 256
          · rw [if_pos h256]
            refine ⟨?_, ?_⟩
            · show c.numGaps + 1 =
                c.numGaps16 + c.numGaps64 + (c.numGaps256 + 1) + c.numGapsOther
              omega
            · show c.sizeGaps + gapSize pe ns =
                c.sizeGaps16 + c.sizeGaps64 + (c.sizeGaps256 + gapSize pe ns) + c.sizeGapsOther
              omega
          · rw [if_neg h256]
            refine ⟨?_, ?_⟩
            · show c.numGaps + 1 =
                c.numGaps16 + c.numGaps64 + c.numGaps256 + (c.numGapsOther + 1)
              omega
            · show c.sizeGaps + gapSize pe ns =
                c.sizeGaps16 + c.sizeGaps64 + c.sizeGaps256 +
                  (c.sizeGapsOther + gapSize pe ns)
              omega
    · rw [if_neg hpos]
      by_cases hneg : gapSize pe ns < 0
      · rw [if_pos hneg]
        exact ⟨h1, h2⟩
      · rw [if_neg hneg]
        exact ⟨h1, h2⟩
  have hloop : ∀ (c : GapCounters) (b : Blk) (rest : List Blk),
      gapInv c → gapInv (gapsLoop c b rest) := by
    intro c b rest
    induction rest generalizing c b with
    | nil => intro hc; exact hc
    | cons x rs ih =>
      intro hc
      show gapInv (gapsLoop (pairUpdate c b.end_ x.start) x rs)
      exact ih _ _ (hpair _ _ _ hc)
  refine ⟨⟨rfl, rfl⟩, hpair, hloop, ?_⟩
  intro blocks c c' hc h
  unfold doGaps at h
  cases hs : sortBlocks blocks with
  | nil =>
    rw [hs] at h
    cases h
  | cons b0 rest =>
    rw [hs] at h
    have he : gapsLoop c b0 rest = c' := Option.some.inj h
    rw [← he]
    exact hloop c b0 rest hc

/-- C9 witness: the invariant is preserved by a concrete overlap update
starting from the zero counters. -/
theorem C9_gap_counter_invariant_witness :
    gapInv (pairUpdate GapCounters.zero 300 272) :=
  C9_gap_counter_invariant.2.1 GapCounters.zero 300 272 ⟨rfl, rfl⟩

/-! ### Claim C10 -/

/-- C10: option processing is a left-to-right fold; `+S` turns on
statements, inline and line-map together (and `-S` turns all three off),
so a later `+S` re-enables layers disabled by an earlier `-I` or `-L`;
`+I` re-enables statements and inline but leaves line-map untouched, and
`+L` re-enables statements and line-map but leaves inline untouched. -/
theorem C10_option_layer_implications :
    ∀ (o : DumpOptions) (args : List OptTok),
      applyOpt o (.optS true) =
        { o with showStmts := true, showInline := true, showLinemap := true } ∧
      applyOpt o (.optS false) =
        { o with showStmts := false, showInline := false, showLinemap := false } ∧
      ((getOptions o (args ++ [.optS true])).showStmts = true ∧
        (getOptions o (args ++ [.optS true])).showInline = true ∧
        (getOptions o (args ++ [.optS true])).showLinemap = true) ∧
      applyOpt o (.optI true) = { o with showInline := true, showStmts := true } ∧
      applyOpt o (.optL true) = { o with showLinemap := true, showStmts := true } ∧
      getOptions defaultDumpOptions [.optI false, .optL false, .optS true] =
        defaultDumpOptions := by
  intro o args
  refine ⟨rfl, rfl, ?_, rfl, rfl, by decide⟩
  unfold getOptions
  rw [List.foldl_append]
  exact ⟨rfl, rfl, rfl⟩
